import Mathlib

/-!
Verification of the eigenplayer audio core (`src/audio.rs`, `src/eq.rs`).

Rust `f32` samples, volumes and filter coefficients are modelled as ideal
real numbers `ℝ`; trigonometry and powers use Mathlib's `Real.sin`,
`Real.cos`, `Real.pi` and real `rpow`.  Stateful Rust methods that mutate
`&mut self` are modelled as pure functions returning the new state.
-/

namespace Eigenplayer

/-! ## Biquad filter (`src/eq.rs`, `struct Biquad`) -/

/-- One second-order IIR section: five normalized coefficients plus two
state registers, exactly the fields of `Biquad` in `src/eq.rs`. -/
structure Biquad where
  b0 : ℝ
  b1 : ℝ
  b2 : ℝ
  a1 : ℝ
  a2 : ℝ
  z1 : ℝ
  z2 : ℝ

/-- `Biquad::new`: stores the five coefficients and zeroes both state
registers. -/
def Biquad.new (b0 b1 b2 a1 a2 : ℝ) : Biquad :=
  { b0 := b0, b1 := b1, b2 := b2, a1 := a1, a2 := a2, z1 := 0, z2 := 0 }

/-- `Biquad::process`: transposed direct-form II step.  Returns the output
sample together with the biquad carrying the updated registers (the Rust
method mutates `self` and returns `y`). -/
noncomputable def Biquad.process (b : Biquad) (x : ℝ) : ℝ × Biquad :=
  let y := b.b0 * x + b.z1
  (y, { b with z1 := b.b1 * x - b.a1 * y + b.z2, z2 := b.b2 * x - b.a2 * y })

/-- `Biquad::reset`: zero the state registers, keep the coefficients. -/
def Biquad.reset (b : Biquad) : Biquad :=
  { b with z1 := 0, z2 := 0 }

/-- Feeding a list of samples, one at a time, through a single biquad
(repeated calls to `Biquad::process`), collecting the outputs and the final
filter state. -/
noncomputable def processList : Biquad → List ℝ → List ℝ × Biquad
  | b, [] => ([], b)
  | b, x :: xs =>
    let p := Biquad.process b x
    let rest := processList p.2 xs
    (p.1 :: rest.1, rest.2)

/-! ## Equalizer (`src/eq.rs`, `struct Eq`) -/

/-- The equalizer: an ordered chain of biquad bands and a bypass flag,
exactly the fields of `Eq` in `src/eq.rs`. -/
structure Eq where
  bands : List Biquad
  enabled : Bool

/-- The `for band in &mut self.bands { x = band.process(x) }` loop of
`Eq::process`: cascade one sample through the chain, returning the output
and the updated chain. -/
noncomputable def processBands : List Biquad → ℝ → ℝ × List Biquad
  | [], x => (x, [])
  | b :: rest, x =>
    let p := Biquad.process b x
    let r := processBands rest p.1
    (r.1, p.2 :: r.2)

/-- `Eq::process`: early-return the sample unchanged when `enabled` is
false, otherwise cascade it through every band in chain order. -/
noncomputable def Eq.process (e : Eq) (sample : ℝ) : ℝ × Eq :=
  if !e.enabled then (sample, e)
  else
    let r := processBands e.bands sample
    (r.1, { e with bands := r.2 })

/-- `Eq::set_enabled`: toggles the bypass flag only. -/
def Eq.set_enabled (e : Eq) (enabled : Bool) : Eq :=
  { e with enabled := enabled }

/-- `Eq::update_bands`: replace the chain and reset every band's registers. -/
def Eq.update_bands (e : Eq) (bands : List Biquad) : Eq :=
  { e with bands := bands.map Biquad.reset }

/-! ## Coefficient derivation (`src/eq.rs`, `fn biquad_coefficients`) -/

/-- `biquad_coefficients` from `src/eq.rs`: audio-EQ-cookbook coefficients
for low shelf (0), peaking (1) and high shelf (2); any other shape code
yields the identity filter.  Every branch returns the raw coefficients
divided by `a0`. -/
noncomputable def biquad_coefficients (f0 q gain_db : ℝ) (band_type : ℕ)
    (sample_rate : ℝ) : ℝ × ℝ × ℝ × ℝ × ℝ :=
  let a := (10 : ℝ) ^ (gain_db / 40)
  let w0 := 2 * Real.pi * f0 / sample_rate
  let cos_w0 := Real.cos w0
  let sin_w0 := Real.sin w0
  let alpha := sin_w0 / (2 * q)
  match band_type with
  | 0 =>
    let sqrt_a := Real.sqrt a
    let b0 := a * ((a + 1) - (a - 1) * cos_w0 + 2 * sqrt_a * alpha)
    let b1 := 2 * a * ((a - 1) - (a + 1) * cos_w0)
    let b2 := a * ((a + 1) - (a - 1) * cos_w0 - 2 * sqrt_a * alpha)
    let a0 := (a + 1) + (a - 1) * cos_w0 + 2 * sqrt_a * alpha
    let a1 := -2 * ((a - 1) + (a + 1) * cos_w0)
    let a2 := (a + 1) + (a - 1) * cos_w0 - 2 * sqrt_a * alpha
    (b0 / a0, b1 / a0, b2 / a0, a1 / a0, a2 / a0)
  | 1 =>
    let b0 := 1 + alpha * a
    let b1 := -2 * cos_w0
    let b2 := 1 - alpha * a
    let a0 := 1 + alpha / a
    let a1 := -2 * cos_w0
    let a2 := 1 - alpha / a
    (b0 / a0, b1 / a0, b2 / a0, a1 / a0, a2 / a0)
  | 2 =>
    let sqrt_a := Real.sqrt a
    let b0 := a * ((a + 1) + (a - 1) * cos_w0 + 2 * sqrt_a * alpha)
    let b1 := -2 * a * ((a - 1) + (a + 1) * cos_w0)
    let b2 := a * ((a + 1) + (a - 1) * cos_w0 - 2 * sqrt_a * alpha)
    let a0 := (a + 1) - (a - 1) * cos_w0 + 2 * sqrt_a * alpha
    let a1 := 2 * ((a - 1) - (a + 1) * cos_w0)
    let a2 := (a + 1) - (a - 1) * cos_w0 - 2 * sqrt_a * alpha
    (b0 / a0, b1 / a0, b2 / a0, a1 / a0, a2 / a0)
  | _ => (1, 0, 0, 0, 0)

/-- Follows the spec's words for the peaking band: linear gain
`A = 10^(gain_db/40)`, `w0 = 2·π·f0/sample_rate`, `alpha = sin w0 / (2q)`,
raw coefficients `b0 = 1+αA, b1 = -2cos w0, b2 = 1-αA, a0 = 1+α/A,
a1 = -2cos w0, a2 = 1-α/A`, all five stored values divided by `a0`.
Written independently of `biquad_coefficients` to compare against it. -/
noncomputable def peakingSpecCoefficients (f0 q gain_db sample_rate : ℝ) :
    ℝ × ℝ × ℝ × ℝ × ℝ :=
  let bigA := (10 : ℝ) ^ (gain_db / 40)
  let w0 := 2 * Real.pi * f0 / sample_rate
  let alpha := Real.sin w0 / (2 * q)
  let b0 := 1 + alpha * bigA
  let b1 := -2 * Real.cos w0
  let b2 := 1 - alpha * bigA
  let a0 := 1 + alpha / bigA
  let a1 := -2 * Real.cos w0
  let a2 := 1 - alpha / bigA
  (b0 / a0, b1 / a0, b2 / a0, a1 / a0, a2 / a0)

/-- One peaking band built the way `Eq::from_config` builds each band:
compute the coefficients for shape code 1 and store them in a fresh
`Biquad` with zeroed registers. -/
noncomputable def peakingBiquad (f0 q gain_db sample_rate : ℝ) : Biquad :=
  let c := biquad_coefficients f0 q gain_db 1 sample_rate
  Biquad.new c.1 c.2.1 c.2.2.1 c.2.2.2.1 c.2.2.2.2

/-! ## Claims C2 and C3 -/

/-- C2: for every frequency, quality and gain, the peaking branch
(shape code 1) of `biquad_coefficients` returns exactly the cookbook
peaking coefficients of the spec, each divided by `a0` before storage. -/
theorem C2_peaking_coefficients (f0 q gain_db sample_rate : ℝ) :
    biquad_coefficients f0 q gain_db 1 sample_rate =
      peakingSpecCoefficients f0 q gain_db sample_rate := by
  rfl

/-- C3: when the equalizer's `enabled` flag is false, `Eq::process`
returns the sample unchanged and leaves the whole equalizer (all band
coefficients and registers) untouched, and `Eq::set_enabled` never
modifies the band list. -/
theorem C3_bypass_identity (e : Eq) (x : ℝ) (h : e.enabled = false)
    (b : Bool) :
    (e.process x).1 = x ∧ (e.process x).2 = e ∧
      (e.set_enabled b).bands = e.bands := by
  refine ⟨?_, ?_, rfl⟩ <;> simp [Eq.process, h]

/-- Witness for C3 at a concrete disabled equalizer with one band. -/
theorem C3_bypass_identity_witness :
    (Eq.mk [Biquad.new 5 4 3 2 1] false).enabled = false ∧
      ((Eq.mk [Biquad.new 5 4 3 2 1] false).process 7).1 = 7 ∧
      ((Eq.mk [Biquad.new 5 4 3 2 1] false).process 7).2 =
        Eq.mk [Biquad.new 5 4 3 2 1] false ∧
      ((Eq.mk [Biquad.new 5 4 3 2 1] false).set_enabled true).bands =
        (Eq.mk [Biquad.new 5 4 3 2 1] false).bands := by
  refine ⟨rfl, ?_⟩
  exact C3_bypass_identity (Eq.mk [Biquad.new 5 4 3 2 1] false) 7 rfl true

/-! ## Claim C5: zero-gain peaking band is the identity filter -/

/-- A biquad whose normalized numerator equals its normalized denominator
(`b0 = 1`, `b1 = a1`, `b2 = a2`) maps any input sample to itself and keeps
its registers at zero. -/
lemma process_identity_step (c d x : ℝ) :
    Biquad.process { b0 := 1, b1 := c, b2 := d, a1 := c, a2 := d, z1 := 0, z2 := 0 } x =
      (x, { b0 := 1, b1 := c, b2 := d, a1 := c, a2 := d, z1 := 0, z2 := 0 }) := by
  simp [Biquad.process]

/-- Iterating `process_identity_step`: an identity-shaped biquad returns
every sample of a list unchanged, ending in its starting state. -/
lemma processList_identity (c d : ℝ) (xs : List ℝ) :
    processList { b0 := 1, b1 := c, b2 := d, a1 := c, a2 := d, z1 := 0, z2 := 0 } xs =
      (xs, { b0 := 1, b1 := c, b2 := d, a1 := c, a2 := d, z1 := 0, z2 := 0 }) := by
  induction xs with
  | nil => rfl
  | cons x xs ih => simp [processList, process_identity_step, ih]

/-- C5: a peaking band built with `gain_db = 0` has an identity transfer
function — its normalized `b`-coefficients coincide with its
`a`-coefficients (`b0 = 1`, `b1 = a1`, `b2 = a2`) and processing any input
sequence from zeroed registers returns every sample unchanged.  The
hypothesis rules out the degenerate parameter combination where the
normalizing denominator `a0 = 1 + α` vanishes (it is positive for every
physically meaningful `0 < f0 < sample_rate/2`, `q > 0`). -/
theorem C5_zero_gain_peaking_identity (f0 q sr : ℝ) (xs : List ℝ)
    (h : 1 + Real.sin (2 * Real.pi * f0 / sr) / (2 * q) ≠ 0) :
    (peakingBiquad f0 q 0 sr).b0 = 1 ∧
      (peakingBiquad f0 q 0 sr).b1 = (peakingBiquad f0 q 0 sr).a1 ∧
      (peakingBiquad f0 q 0 sr).b2 = (peakingBiquad f0 q 0 sr).a2 ∧
      (processList (peakingBiquad f0 q 0 sr) xs).1 = xs := by
  have hA : (10 : ℝ) ^ ((0 : ℝ) / 40) = 1 := by
    rw [zero_div, Real.rpow_zero]
  have e1 : peakingBiquad f0 q 0 sr =
      Biquad.new
        ((1 + Real.sin (2 * Real.pi * f0 / sr) / (2 * q) * ((10 : ℝ) ^ ((0 : ℝ) / 40))) /
          (1 + Real.sin (2 * Real.pi * f0 / sr) / (2 * q) / ((10 : ℝ) ^ ((0 : ℝ) / 40))))
        (-2 * Real.cos (2 * Real.pi * f0 / sr) /
          (1 + Real.sin (2 * Real.pi * f0 / sr) / (2 * q) / ((10 : ℝ) ^ ((0 : ℝ) / 40))))
        ((1 - Real.sin (2 * Real.pi * f0 / sr) / (2 * q) * ((10 : ℝ) ^ ((0 : ℝ) / 40))) /
          (1 + Real.sin (2 * Real.pi * f0 / sr) / (2 * q) / ((10 : ℝ) ^ ((0 : ℝ) / 40))))
        (-2 * Real.cos (2 * Real.pi * f0 / sr) /
          (1 + Real.sin (2 * Real.pi * f0 / sr) / (2 * q) / ((10 : ℝ) ^ ((0 : ℝ) / 40))))
        ((1 - Real.sin (2 * Real.pi * f0 / sr) / (2 * q) / ((10 : ℝ) ^ ((0 : ℝ) / 40))) /
          (1 + Real.sin (2 * Real.pi * f0 / sr) / (2 * q) / ((10 : ℝ) ^ ((0 : ℝ) / 40)))) := rfl
  have hb : peakingBiquad f0 q 0 sr =
      { b0 := 1,
        b1 := -2 * Real.cos (2 * Real.pi * f0 / sr) /
          (1 + Real.sin (2 * Real.pi * f0 / sr) / (2 * q)),
        b2 := (1 - Real.sin (2 * Real.pi * f0 / sr) / (2 * q)) /
          (1 + Real.sin (2 * Real.pi * f0 / sr) / (2 * q)),
        a1 := -2 * Real.cos (2 * Real.pi * f0 / sr) /
          (1 + Real.sin (2 * Real.pi * f0 / sr) / (2 * q)),
        a2 := (1 - Real.sin (2 * Real.pi * f0 / sr) / (2 * q)) /
          (1 + Real.sin (2 * Real.pi * f0 / sr) / (2 * q)),
        z1 := 0, z2 := 0 } := by
    rw [e1, hA]
    simp [Biquad.new, Biquad.mk.injEq, mul_one, div_one, div_self h]
  rw [hb]
  exact ⟨rfl, rfl, rfl, by rw [processList_identity]⟩

/-- Witness for C5 at `f0 = 0`, `q = 1`, `sample_rate = 1` and the input
sequence `[1, 2]`. -/
theorem C5_zero_gain_peaking_identity_witness :
    (1 + Real.sin (2 * Real.pi * (0 : ℝ) / 1) / (2 * 1) ≠ 0) ∧
      (processList (peakingBiquad 0 1 0 1) [1, 2]).1 = [1, 2] := by
  have h : 1 + Real.sin (2 * Real.pi * (0 : ℝ) / 1) / (2 * 1) ≠ 0 := by
    norm_num
  exact ⟨h, (C5_zero_gain_peaking_identity 0 1 1 [1, 2] h).2.2.2⟩

/-! ## AudioBackend control state (`src/audio.rs`) -/

/-- Rust `f32::clamp(lo, hi)` as invoked by `set_volume`
(`volume.clamp(0.0, 1.0)`): below `lo` gives `lo`, above `hi` gives `hi`,
otherwise the value itself. -/
noncomputable def fclamp (x lo hi : ℝ) : ℝ :=
  if x < lo then lo else if x > hi then hi else x

/-- The shared `AudioState` of `src/audio.rs`. -/
structure AudioState where
  playing : Bool
  volume : ℝ
  stop_signal : Bool

/-- The `AudioBackend` fields the control-flow claims depend on: the
shared state, the `Option<JoinHandle>` decoder-thread slot and the stored
ring-buffer capacity.  The cpal device/stream handles and the `Eq` mutex
are external resources orthogonal to these claims and are left out of the
model. -/
structure AudioBackend where
  state : AudioState
  decoder_thread : Option Unit
  ring_buffer_size : ℕ

/-- `AudioBackend::with_ring_buffer_size`: the fresh shared state stores
the `default_volume` argument unclamped, with `playing = false`,
`stop_signal = false` and no decoder thread. -/
def AudioBackend.with_ring_buffer_size (ring_buffer_size : ℕ)
    (default_volume : ℝ) : AudioBackend :=
  { state := { playing := false, volume := default_volume, stop_signal := false },
    decoder_thread := none,
    ring_buffer_size := ring_buffer_size }

/-- `AudioBackend::stop_decoder`: when a decoder thread is present, set
`stop_signal`, join the thread, then clear `stop_signal`; when none is
present, do nothing. -/
def AudioBackend.stop_decoder (b : AudioBackend) : AudioBackend :=
  match b.decoder_thread with
  | none => b
  | some _ =>
    let s1 := { b.state with stop_signal := true }
    let s2 := { s1 with stop_signal := false }
    { b with state := s2, decoder_thread := none }

/-- The possible outcomes of one `load_track` call, in source order:
`File::open` fails, the format probe fails, there is no default track, no
decoder is registered for the codec, or everything succeeds and a decoder
thread is spawned. -/
inductive LoadOutcome where
  | openErr
  | probeErr
  | noTrackErr
  | noDecoderErr
  | ok
deriving DecidableEq

/-- `AudioBackend::load_track`: first `stop_decoder()`, then the
open/probe/track/decoder steps — each failure returns the error with no
thread spawned; on success a fresh decoder thread is installed.  The
`Bool` component is `true` exactly for `Ok(())`. -/
def AudioBackend.load_track (b : AudioBackend) (r : LoadOutcome) :
    AudioBackend × Bool :=
  let b1 := b.stop_decoder
  match r with
  | .openErr => (b1, false)
  | .probeErr => (b1, false)
  | .noTrackErr => (b1, false)
  | .noDecoderErr => (b1, false)
  | .ok => ({ b1 with decoder_thread := some () }, true)

/-- `AudioBackend::play`: sets `playing := true` (decoding is already
running once a track is loaded). -/
def AudioBackend.play (b : AudioBackend) : AudioBackend :=
  { b with state := { b.state with playing := true } }

/-- `AudioBackend::pause`: sets `playing := false`; no thread teardown. -/
def AudioBackend.pause (b : AudioBackend) : AudioBackend :=
  { b with state := { b.state with playing := false } }

/-- `AudioBackend::stop`: runs `stop_decoder` then sets
`playing := false`. -/
def AudioBackend.stop (b : AudioBackend) : AudioBackend :=
  let b1 := b.stop_decoder
  { b1 with state := { b1.state with playing := false } }

/-- `AudioBackend::set_volume`: stores `volume.clamp(0.0, 1.0)`. -/
noncomputable def AudioBackend.set_volume (b : AudioBackend) (volume : ℝ) :
    AudioBackend :=
  { b with state := { b.state with volume := fclamp volume 0 1 } }

/-- `AudioBackend::is_playing`: reads the flag. -/
def AudioBackend.is_playing (b : AudioBackend) : Bool :=
  b.state.playing

/-- One public operation on the backend; `drop` is the `Drop`
implementation (backend teardown), which runs `stop_decoder`. -/
inductive Op where
  | load (r : LoadOutcome)
  | play
  | pause
  | stop
  | set_volume (v : ℝ)
  | drop

/-- Apply one public operation to a backend. -/
noncomputable def AudioBackend.step (b : AudioBackend) : Op → AudioBackend
  | .load r => (b.load_track r).1
  | .play => b.play
  | .pause => b.pause
  | .stop => b.stop
  | .set_volume v => b.set_volume v
  | .drop => b.stop_decoder

/-- The state reached from construction by a sequence of public
operations. -/
noncomputable def AudioBackend.run (ring_buffer_size : ℕ)
    (default_volume : ℝ) (ops : List Op) : AudioBackend :=
  ops.foldl AudioBackend.step
    (AudioBackend.with_ring_buffer_size ring_buffer_size default_volume)

/-! ## Claims C1, C4, C9, C10 -/

/-- The Rust clamp always lands in `[lo, hi]` for `lo = 0`, `hi = 1`. -/
lemma fclamp_mem (v : ℝ) : 0 ≤ fclamp v 0 1 ∧ fclamp v 0 1 ≤ 1 := by
  unfold fclamp
  split_ifs with h1 h2
  · norm_num
  · norm_num
  · exact ⟨le_of_not_lt h1, le_of_not_lt h2⟩

/-- Every public operation keeps the stored volume inside `[0, 1]` once it
is there: only `set_volume` writes the field, and it writes a clamped
value. -/
lemma step_volume_invariant (b : AudioBackend) (op : Op)
    (h0 : 0 ≤ b.state.volume) (h1 : b.state.volume ≤ 1) :
    0 ≤ (b.step op).state.volume ∧ (b.step op).state.volume ≤ 1 := by
  cases op with
  | load r =>
    cases r <;> cases hd : b.decoder_thread <;>
      simp [AudioBackend.step, AudioBackend.load_track,
        AudioBackend.stop_decoder, hd, h0, h1]
  | play => exact ⟨h0, h1⟩
  | pause => exact ⟨h0, h1⟩
  | stop =>
    cases hd : b.decoder_thread <;>
      simp [AudioBackend.step, AudioBackend.stop, AudioBackend.stop_decoder,
        hd, h0, h1]
  | set_volume v => exact fclamp_mem v
  | drop =>
    cases hd : b.decoder_thread <;>
      simp [AudioBackend.step, AudioBackend.stop_decoder, hd, h0, h1]

/-- Volume invariant propagated along any operation sequence. -/
lemma run_volume_invariant : ∀ (ops : List Op) (b : AudioBackend),
    0 ≤ b.state.volume → b.state.volume ≤ 1 →
    0 ≤ (ops.foldl AudioBackend.step b).state.volume ∧
      (ops.foldl AudioBackend.step b).state.volume ≤ 1
  | [], _, h0, h1 => ⟨h0, h1⟩
  | op :: ops, b, h0, h1 => by
    have h := step_volume_invariant b op h0 h1
    simpa [List.foldl] using run_volume_invariant ops (b.step op) h.1 h.2

/-- Every public operation leaves `stop_signal` false when it was false
before: `stop_decoder` clears it after a join and nothing else sets it. -/
lemma step_stop_signal (b : AudioBackend) (op : Op)
    (h : b.state.stop_signal = false) :
    (b.step op).state.stop_signal = false := by
  cases op with
  | load r =>
    cases r <;> cases hd : b.decoder_thread <;>
      simp [AudioBackend.step, AudioBackend.load_track,
        AudioBackend.stop_decoder, hd, h]
  | play => exact h
  | pause => exact h
  | stop =>
    cases hd : b.decoder_thread <;>
      simp [AudioBackend.step, AudioBackend.stop, AudioBackend.stop_decoder,
        hd, h]
  | set_volume v => exact h
  | drop =>
    cases hd : b.decoder_thread <;>
      simp [AudioBackend.step, AudioBackend.stop_decoder, hd, h]

/-- `stop_signal = false` propagated along any operation sequence. -/
lemma run_stop_signal : ∀ (ops : List Op) (b : AudioBackend),
    b.state.stop_signal = false →
    (ops.foldl AudioBackend.step b).state.stop_signal = false
  | [], _, h => h
  | op :: ops, b, h => by
    simpa [List.foldl] using run_stop_signal ops (b.step op) (step_stop_signal b op h)

/-- C1 as stated is false: `with_ring_buffer_size` stores the
`default_volume` argument without clamping, so constructing with
`default_volume = 2` and applying no operation reaches a state whose
volume exceeds 1. -/
theorem C1_volume_invariant_counterexample :
    ¬ ((AudioBackend.run 4096 2 []).state.volume ≤ 1) := by
  norm_num [AudioBackend.run, AudioBackend.with_ring_buffer_size]

/-- C1 amended: provided the `default_volume` passed at construction lies
in `[0, 1]`, every state reachable by any sequence of
`load_track`/`play`/`pause`/`stop`/`set_volume`/teardown operations keeps
the stored volume in `[0, 1]`. -/
theorem C1_volume_invariant_amended (n : ℕ) (dv : ℝ)
    (h0 : 0 ≤ dv) (h1 : dv ≤ 1) (ops : List Op) :
    0 ≤ (AudioBackend.run n dv ops).state.volume ∧
      (AudioBackend.run n dv ops).state.volume ≤ 1 :=
  run_volume_invariant ops _ h0 h1

/-- Witness for the amended C1 at `default_volume = 1/2` with a play and
an out-of-range `set_volume`. -/
theorem C1_volume_invariant_amended_witness :
    ((0 : ℝ) ≤ 1 / 2 ∧ (1 / 2 : ℝ) ≤ 1) ∧
      (0 ≤ (AudioBackend.run 4096 (1 / 2) [Op.play, Op.set_volume 2]).state.volume ∧
        (AudioBackend.run 4096 (1 / 2) [Op.play, Op.set_volume 2]).state.volume ≤ 1) :=
  ⟨by norm_num,
    C1_volume_invariant_amended 4096 (1 / 2) (by norm_num) (by norm_num)
      [Op.play, Op.set_volume 2]⟩

/-- C4: `set_volume(v)` stores exactly the clamp of `v` to `[0, 1]` — the
Rust if-chain clamp, which agrees with the mathematical
`max 0 (min v 1)`. -/
theorem C4_set_volume_clamps (b : AudioBackend) (v : ℝ) :
    (b.set_volume v).state.volume = fclamp v 0 1 ∧
      fclamp v 0 1 = max 0 (min v 1) := by
  refine ⟨rfl, ?_⟩
  unfold fclamp
  split_ifs with h1 h2
  · rw [min_eq_left (by linarith), max_eq_left h1.le]
  · rw [min_eq_right h2.le, max_eq_right zero_le_one]
  · rw [min_eq_left (not_lt.mp h2), max_eq_right (not_lt.mp h1)]

/-- C9: `stop()` on a backend with no live decoder thread only sets
`playing := false` (total, no panic), and in every reachable state — in
particular after any `stop`, `load_track` or teardown returns —
`stop_signal` is false. -/
theorem C9_stop_noop_and_stop_signal_clear (b : AudioBackend)
    (h : b.decoder_thread = none) (n : ℕ) (dv : ℝ) (ops : List Op) :
    b.stop = { b with state := { b.state with playing := false } } ∧
      (AudioBackend.run n dv ops).state.stop_signal = false := by
  constructor
  · simp [AudioBackend.stop, AudioBackend.stop_decoder, h]
  · exact run_stop_signal ops _ rfl

/-- Witness for C9 on a freshly constructed backend and a
stop-then-teardown sequence. -/
theorem C9_stop_noop_and_stop_signal_clear_witness :
    (AudioBackend.with_ring_buffer_size 4096 1).decoder_thread = none ∧
      ((AudioBackend.with_ring_buffer_size 4096 1).stop =
          { AudioBackend.with_ring_buffer_size 4096 1 with
              state := { (AudioBackend.with_ring_buffer_size 4096 1).state with
                playing := false } } ∧
        (AudioBackend.run 4096 1 [Op.stop, Op.drop]).state.stop_signal = false) :=
  ⟨rfl,
    C9_stop_noop_and_stop_signal_clear (AudioBackend.with_ring_buffer_size 4096 1)
      rfl 4096 1 [Op.stop, Op.drop]⟩

/-- C10: a `load_track` call that fails (any of the four error outcomes)
has already run `stop_decoder` — its result state is exactly the
stopped-and-joined state, with no decoder thread left running. -/
theorem C10_failed_load_still_stops_decoder (b : AudioBackend)
    (r : LoadOutcome) (h : r ≠ LoadOutcome.ok) :
    (b.load_track r).1 = b.stop_decoder ∧
      (b.load_track r).1.decoder_thread = none ∧
      (b.load_track r).2 = false := by
  have hst : b.stop_decoder.decoder_thread = none := by
    cases hd : b.decoder_thread <;> simp [AudioBackend.stop_decoder, hd]
  cases r with
  | ok => exact absurd rfl h
  | openErr => exact ⟨rfl, hst, rfl⟩
  | probeErr => exact ⟨rfl, hst, rfl⟩
  | noTrackErr => exact ⟨rfl, hst, rfl⟩
  | noDecoderErr => exact ⟨rfl, hst, rfl⟩

/-- Witness for C10: a failing open on a backend with a live decoder
thread. -/
theorem C10_failed_load_still_stops_decoder_witness :
    (LoadOutcome.openErr ≠ LoadOutcome.ok) ∧
      (({ AudioBackend.with_ring_buffer_size 8 0 with
            decoder_thread := some () } : AudioBackend).load_track
          LoadOutcome.openErr).1 =
        ({ AudioBackend.with_ring_buffer_size 8 0 with
            decoder_thread := some () } : AudioBackend).stop_decoder ∧
      (({ AudioBackend.with_ring_buffer_size 8 0 with
            decoder_thread := some () } : AudioBackend).load_track
          LoadOutcome.openErr).1.decoder_thread = none ∧
      (({ AudioBackend.with_ring_buffer_size 8 0 with
            decoder_thread := some () } : AudioBackend).load_track
          LoadOutcome.openErr).2 = false :=
  ⟨by decide,
    C10_failed_load_still_stops_decoder
      { AudioBackend.with_ring_buffer_size 8 0 with decoder_thread := some () }
      LoadOutcome.openErr (by decide)⟩

/-! ## Output callback (`src/audio.rs`, closure inside `load_track`)

The SPSC ring buffer is modelled as the FIFO list of
buffered-but-unconsumed samples, oldest first; `try_pop` removes the
head when one exists. -/

/-- `Consumer::try_pop`: the oldest buffered sample, or `none` on an empty
buffer, together with the remaining buffer. -/
def try_pop : List ℝ → Option ℝ × List ℝ
  | [] => (none, [])
  | x :: r => (some x, r)

/-- The `for sample in data.iter_mut()` loop of the playing branch of the
output callback: for each of the `n` slots, pop one sample
(`try_pop().unwrap_or(0.0)`), run it through the equalizer when enabled,
scale by the volume, and collect it.  Returns the filled slots, the
remaining ring buffer and the updated equalizer. -/
noncomputable def fillLoop (volume : ℝ) : Eq → List ℝ → ℕ → List ℝ × List ℝ × Eq
  | e, ring, 0 => ([], ring, e)
  | e, ring, n + 1 =>
    let popped := try_pop ring
    let s := popped.1.getD 0
    let p := if e.enabled then e.process s else (s, e)
    let rest := fillLoop volume p.2 popped.2 n
    (p.1 * volume :: rest.1, rest.2)

/-- The cpal output callback built in `load_track`, for a caller buffer of
`n` slots: when not `playing`, write `0.0` into every slot and return
without touching the ring buffer or the equalizer; otherwise run the
fill loop. -/
noncomputable def outputCallback (playing : Bool) (volume : ℝ) (e : Eq)
    (ring : List ℝ) (n : ℕ) : List ℝ × List ℝ × Eq :=
  if !playing then (List.replicate n 0, ring, e)
  else fillLoop volume e ring n

/-- Modelled from the spec's words for the per-slot playing path: process
an explicit stream of input samples (equalize when enabled, then scale by
the volume).  Used to compare the callback against the stream it
effectively consumes. -/
noncomputable def playStream (volume : ℝ) : Eq → List ℝ → List ℝ × Eq
  | e, [] => ([], e)
  | e, x :: xs =>
    let p := if e.enabled then e.process x else (x, e)
    let rest := playStream volume p.2 xs
    (p.1 * volume :: rest.1, rest.2)

/-- The sample stream the callback consumes from a buffer `ring` over `n`
slots: the first `n` buffered samples, padded with `0.0` for every slot on
which the pop found the buffer empty. -/
def padTake (ring : List ℝ) (n : ℕ) : List ℝ :=
  List.take n ring ++ List.replicate (n - ring.length) 0

/-! ## Claims C6 and C8 -/

/-- C6: whenever the output callback runs with `playing = false` it writes
`0.0` into every one of the `n` slots and returns with the ring buffer
(and the equalizer) untouched, so pausing never decreases the buffer's
fill level through output consumption. -/
theorem C6_paused_callback_writes_silence (volume : ℝ) (e : Eq)
    (ring : List ℝ) (n : ℕ) :
    outputCallback false volume e ring n = (List.replicate n 0, ring, e) :=
  rfl

/-- C8: when the callback runs with `playing = true`, every pop that finds
the ring buffer empty substitutes `0.0` for that sample, which is then
equalized and volume-scaled exactly like a buffered sample: the callback
behaves as the normal playing path applied to the buffered samples padded
with zeros, and never blocks (it is a total function of its inputs). -/
theorem C8_underrun_substitutes_silence (volume : ℝ) (e : Eq)
    (ring : List ℝ) (n : ℕ) :
    outputCallback true volume e ring n =
      ((playStream volume e (padTake ring n)).1, List.drop n ring,
        (playStream volume e (padTake ring n)).2) := by
  show fillLoop volume e ring n = _
  induction n generalizing e ring with
  | zero => simp [fillLoop, padTake, playStream]
  | succ n ih =>
    cases ring with
    | nil =>
      have hpad : padTake [] (n + 1) = 0 :: padTake [] n := by
        simp [padTake, List.replicate_succ]
      rw [hpad]
      simp [fillLoop, try_pop, playStream, ih]
    | cons x r =>
      have hpad : padTake (x :: r) (n + 1) = x :: padTake r n := by
        simp [padTake, List.take_succ_cons]
      rw [hpad]
      simp [fillLoop, try_pop, playStream, ih]

/-! ## Decoder thread streaming loop (`src/audio.rs`, thread closure in
`load_track`)

One loop iteration observes the `stop_signal` flag, then pulls the next
packet.  `format.next_packet()` returning `Err` covers both end-of-stream
and a fatal demux error; `decoder.decode(&packet)` returning `Err` is a
recoverable per-packet error.  A successfully decoded packet is converted
to interleaved floats and its samples are pushed in order (the backpressure
retry loop eventually pushes each sample when no stop is requested, so the
pushes of one packet appear as one append). -/

/-- What one pull-and-decode iteration encounters. -/
inductive PacketEvent where
  | demuxEnd
  | badPacket
  | goodPacket (samples : List ℝ)

/-- The decoder thread's streaming loop over a script of iterations, each
an observed `stop_signal` value paired with what the demuxer/decoder
returns; yields the samples pushed into the ring buffer before the thread
terminates.  An exhausted script is end-of-stream. -/
def decoderLoop : List (Bool × PacketEvent) → List ℝ
  | [] => []
  | (stopSig, ev) :: rest =>
    if stopSig then []
    else
      match ev with
      | .demuxEnd => []
      | .badPacket => decoderLoop rest
      | .goodPacket s => s ++ decoderLoop rest

/-- C7: in each iteration of the streaming loop, a recoverable decode
error skips that packet and continues with the next one; end-of-stream and
a fatal demux error (both surfacing as `next_packet` failing) exit the
loop, ignoring everything after; a decoded packet contributes its samples
and continues.  An observed stop signal also terminates the thread. -/
theorem C7_decoder_loop_error_policy (rest : List (Bool × PacketEvent))
    (s : List ℝ) :
    decoderLoop ((false, PacketEvent.badPacket) :: rest) = decoderLoop rest ∧
      decoderLoop ((false, PacketEvent.demuxEnd) :: rest) = [] ∧
      decoderLoop ((false, PacketEvent.goodPacket s) :: rest) =
        s ++ decoderLoop rest ∧
      decoderLoop ((true, PacketEvent.badPacket) :: rest) = [] :=
  ⟨rfl, rfl, rfl, rfl⟩

end Eigenplayer
